import Mathlib

/-!
Shallow embedding of `asrequests.py` (class `AsRequests`).

The Python program drives `requests.get/post` calls through an asyncio event
loop.  The embedding models the batch ("with AsRequests() as ar:") usage:
enqueuing via `get`/`post` appends a pending task; the tasks actually run when
`_executeTasks` drives the loop (`run_until_complete(asyncio.wait(tasks))`).

Modelling choices, all taken from the source or the documented behaviour of
the Python standard library at the call sites:
* The transport outcome of one `session.get/post` call is an external input,
  carried by the pending task as `Except PyError Response`.
* `asyncio.wait` on an empty collection raises `ValueError`; `asyncio.wait`
  on futures attached to a different event loop raises
  `ValueError("loop argument must agree with Future")`.  `_executeTasks`
  installs a fresh loop (`new_event_loop`/`set_event_loop`), modelled by a
  loop-generation counter; tasks are stamped with the generation current at
  enqueue time.
* `asyncio.Task(x)` for a non-coroutine `x` raises
  `TypeError("a coroutine was expected")` (callbackMode 3 with a plain
  callback: `asyncCallback` appends the plain callback's return value `None`).
* A user callback is either a plain function (its call runs its effect at
  once) or a coroutine function (its call builds a coroutine whose effect runs
  only when awaited).  Only its effect on `self.result` is modelled.
* Side effects that leave the state (calling `self.exceptionHandler`,
  scheduling and running callbacks, a task returning its data) are recorded in
  a ghost event trace `events`.
* Mode 2 of `_executeTasks` iterates `self.result` scheduling the callback on
  the executor; the embedding fixes the legal schedule in which the executor
  runs the callbacks only when awaited (`run_until_complete(wait(...))`), so
  the iteration sees the snapshot taken after all tasks finished.
-/

namespace Asrequests

/-- Python exceptions that arise at the call sites of `asrequests.py`. -/
inductive PyError where
  | connectionError (msg : String)
  | timeoutError (msg : String)
  | valueError (msg : String)
  | typeError (msg : String)
  | unboundLocalError (msg : String)
  deriving DecidableEq, Repr

/-- A `requests` response object (abstracted to the fields the program reads). -/
structure Response where
  url : String
  statusCode : Nat
  text : String
  deriving DecidableEq, Repr

/-- The `ErrorRequest` namedtuple of `asrequests.py`. -/
structure ErrorRequest where
  url : String
  text : String
  content : List UInt8
  code : String
  error_info : PyError
  deriving DecidableEq, Repr

/-- The `data` value produced by `_aHttpRequest`: a response or an `ErrorRequest`. -/
inductive Data where
  | response (r : Response)
  | err (e : ErrorRequest)
  deriving DecidableEq, Repr

/-- A callback's effect on `self.result` (the only state a callback of the
documented default shape touches). -/
abbrev CbFun := Data → List Data → List Data

/-- A user callback: either a plain function (calling it runs the effect) or a
coroutine function (calling it yields a coroutine, effect deferred to await). -/
inductive Callback where
  | plain (f : CbFun)
  | coro (f : CbFun)

def Callback.isCoro : Callback → Bool
  | .plain _ => false
  | .coro _ => true

/-- An entry of `self.asyncCallbackTasks`: `asyncCallback` appends
`self.callback(response)` — `None` for a plain callback (already run), or the
coroutine object for a coroutine callback. -/
inductive AsyncItem where
  | noneVal
  | coroItem (f : CbFun) (d : Data)

def AsyncItem.isNoneVal : AsyncItem → Bool
  | .noneVal => true
  | _ => false

/-- Ghost trace of observable side effects. -/
inductive Event where
  | handlerCalled (hid : Nat) (e : PyError)
  | callbackScheduled (d : Data)
  | taskReturned (d : Data)
  | blockingCbScheduled (d : Data)
  | callbackCompleted (d : Data)
  deriving DecidableEq, Repr

def Event.isHandlerCalled : Event → Bool
  | .handlerCalled _ _ => true
  | _ => false

def Event.isTaskReturned : Event → Bool
  | .taskReturned _ => true
  | _ => false

def Event.isCallbackCompleted : Event → Bool
  | .callbackCompleted _ => true
  | _ => false

/-- A pending task created by `get`/`post` (`asyncio.ensure_future(self._get …)`):
the method string handed to `_httpRequest`, the url, the transport outcome of
the underlying session call, and the loop generation current at enqueue time. -/
instance : DecidableEq (Except PyError Response)
  | .ok a, .ok b =>
      if h : a = b then isTrue (by rw [h])
      else isFalse (fun hc => h (by injection hc))
  | .ok _, .error _ => isFalse (fun hc => Except.noConfusion hc)
  | .error _, .ok _ => isFalse (fun hc => Except.noConfusion hc)
  | .error a, .error b =>
      if h : a = b then isTrue (by rw [h])
      else isFalse (fun hc => h (by injection hc))

structure PendingTask where
  method : String
  url : String
  transport : Except PyError Response
  loopGen : Nat
  deriving DecidableEq, Repr

/-- The mutable state of an `AsRequests` object, plus the loop generation and
the ghost event trace.  The exception handler is identified by a number; its
invocations are recorded in `events`. -/
structure AsRequests where
  callbackMode : Int
  tasks : List PendingTask
  result : List Data
  callback : Callback
  blockingCallbackTasks : List Data
  asyncCallbackTasks : List AsyncItem
  exceptionHandler : Nat
  loopGen : Nat
  events : List Event

/-- The default callback: `lambda response: self.result.append(response)`. -/
def defaultCbFun : CbFun := fun d r => r ++ [d]

/-- Constructor `AsRequests.__init__(callback, exceptionHandler, callbackMode)`. -/
def mkAsRequests (callback : Option Callback) (exceptionHandler : Option Nat)
    (callbackMode : Int) : AsRequests :=
  { callbackMode := callbackMode
    tasks := []
    result := []
    callback := callback.getD (.plain defaultCbFun)
    blockingCallbackTasks := []
    asyncCallbackTasks := []
    exceptionHandler := exceptionHandler.getD 0
    loopGen := 0
    events := [] }

def waitEmptyMsg : String := "Set of coroutines/Futures is empty."

def loopMismatchMsg : String := "loop argument must agree with Future"

def unboundLocalMsg : String :=
  "local variable 'data' referenced before assignment"

/-- Python `str.upper` (ASCII), written as a plain character map so that it
reduces by computation. -/
def upper (s : String) : String := ⟨s.data.map Char.toUpper⟩

/-- Method `_httpRequest(method, url, kwargs)`: upper-cases the method, dispatches to
`session.get`/`session.post` (whose outcome is `transport`); for any other
method `data` is never assigned and `return data` raises `UnboundLocalError`. -/
def httpRequest (method url : String) (transport : Except PyError Response) :
    Except PyError Response :=
  let m := upper method
  if m = "GET" then transport
  else if m = "POST" then transport
  else .error (.unboundLocalError unboundLocalMsg)

/-- The `finally:` block of `_aHttpRequest`: dispatch `data` to the callback
according to `callbackMode` (3: `asyncCallback`, 2: `blockingCallback`,
otherwise `self.callback` directly via `call_soon_threadsafe`). -/
def dispatchCallback (st : AsRequests) (d : Data) : AsRequests :=
  let st1 := { st with events := st.events ++ [Event.callbackScheduled d] }
  if st.callbackMode = 3 then
    match st1.callback with
    | .plain f =>
        { st1 with result := f d st1.result,
                   asyncCallbackTasks := st1.asyncCallbackTasks ++ [AsyncItem.noneVal] }
    | .coro f =>
        { st1 with asyncCallbackTasks := st1.asyncCallbackTasks ++ [AsyncItem.coroItem f d] }
  else if st.callbackMode = 2 then
    { st1 with result := st1.result ++ [d] }
  else
    match st1.callback with
    | .plain f => { st1 with result := f d st1.result }
    | .coro _ => st1

/-- Coroutine `_aHttpRequest(method, url, kwargs)` run to completion for one task:
`try: data = yield from future / except Exception as e: data = ErrorRequest(…);
self.exceptionHandler(e) / finally: dispatch / return data`. -/
def aHttpRequest (st : AsRequests) (t : PendingTask) : AsRequests × Data :=
  let step :=
    match httpRequest t.method t.url t.transport with
    | .ok r => (st, Data.response r)
    | .error e =>
        ({ st with events := st.events ++ [Event.handlerCalled st.exceptionHandler e] },
         Data.err { url := t.url, text := "", content := [], code := "404",
                    error_info := e })
  let st2 := dispatchCallback step.1 step.2
  ({ st2 with events := st2.events ++ [Event.taskReturned step.2] }, step.2)

/-- The data `_aHttpRequest` produces for a task, as a pure function. -/
def dataFor (t : PendingTask) : Data :=
  match httpRequest t.method t.url t.transport with
  | .ok r => Data.response r
  | .error e =>
      Data.err { url := t.url, text := "", content := [], code := "404",
                 error_info := e }

/-- Loop step `run_until_complete(asyncio.wait(tasks))`: every pending task runs to
completion (completion order modelled as list order). -/
def runAll (st : AsRequests) (l : List PendingTask) : AsRequests :=
  l.foldl (fun s t => (aHttpRequest s t).1) st

/-- Loop step `run_until_complete(wait(blockingCallbackTasks))`: the executor runs the
scheduled callback calls; a coroutine-function callback merely builds a
never-awaited coroutine in the executor thread, so it has no effect. -/
def runBlocking (st : AsRequests) (l : List Data) : AsRequests :=
  l.foldl (fun s d =>
    let s1 :=
      match s.callback with
      | .plain f => { s with result := f d s.result }
      | .coro _ => s
    { s1 with events := s1.events ++ [Event.callbackCompleted d] }) st

/-- The mode-2 scheduling loop: `for i in self.result:
future = newLoop.run_in_executor(None, self.callback, i);
self.blockingCallbackTasks.append(asyncio.ensure_future(future))`. -/
def scheduleBlocking (st : AsRequests) (l : List Data) : AsRequests :=
  l.foldl (fun s d =>
    { s with blockingCallbackTasks := s.blockingCallbackTasks ++ [d],
             events := s.events ++ [Event.blockingCbScheduled d] }) st

/-- Mode-2 tail of `_executeTasks`: schedule `self.callback(i)` on the executor
for each `i` in `self.result`, track the futures in `blockingCallbackTasks`,
then await them all (`asyncio.wait` on an empty collection raises). -/
def mode2Run (st : AsRequests) : Except PyError AsRequests :=
  let sched := scheduleBlocking st st.result
  if sched.blockingCallbackTasks.isEmpty then .error (.valueError waitEmptyMsg)
  else .ok (runBlocking sched sched.blockingCallbackTasks)

/-- Awaiting the mode-3 callback coroutines. -/
def runAsyncTasks (st : AsRequests) (l : List AsyncItem) : AsRequests :=
  l.foldl (fun s it =>
    match it with
    | .noneVal => s
    | .coroItem f d =>
        { s with result := f d s.result,
                 events := s.events ++ [Event.callbackCompleted d] }) st

/-- Mode-3 tail of `_executeTasks`:
`wait([asyncio.Task(x) for x in asyncCallbackTasks])`; `Task(None)` raises
`TypeError`, `wait([])` raises `ValueError`. -/
def mode3Run (st : AsRequests) : Except PyError AsRequests :=
  if st.asyncCallbackTasks.any AsyncItem.isNoneVal then
    .error (.typeError "a coroutine was expected")
  else if st.asyncCallbackTasks.isEmpty then .error (.valueError waitEmptyMsg)
  else .ok (runAsyncTasks st st.asyncCallbackTasks)

/-- Method `_executeTasks`: wait for all pending tasks (raising for an empty task set
or tasks attached to a superseded loop), install a fresh event loop, then run
the mode-2 / mode-3 callback phase. -/
def executeTasks (st : AsRequests) : Except PyError AsRequests :=
  if st.tasks.isEmpty then .error (.valueError waitEmptyMsg)
  else if st.tasks.any (fun t => t.loopGen != st.loopGen) then
    .error (.valueError loopMismatchMsg)
  else
    let st1 := runAll st st.tasks
    let st2 := { st1 with loopGen := st1.loopGen + 1 }
    if st2.callbackMode = 3 then mode3Run st2
    else if st2.callbackMode = 2 then mode2Run st2
    else .ok st2

/-- Method `__enter__`: reset `tasks`, `result`, `blockingCallbackTasks`,
`asyncCallbackTasks`. -/
def enter (st : AsRequests) : AsRequests :=
  { st with tasks := [], result := [], blockingCallbackTasks := [],
            asyncCallbackTasks := [] }

/-- Method `__exit__`: run `_executeTasks`, then `return True` (an exception escaping
`_executeTasks` propagates instead of a return value). -/
def exitCm (st : AsRequests) : Except PyError (AsRequests × Bool) :=
  (executeTasks st).map (fun s => (s, true))

/-- A `with`-block body: mutates the state and possibly raises. -/
def PyBody := AsRequests → AsRequests × Option PyError

/-- The context-manager protocol around `with AsRequests() as ar: body`:
`__enter__`, the body, then `__exit__`; a body exception is suppressed when
`__exit__` returns a truthy value, while an exception raised inside
`__exit__` itself propagates. -/
def runScope (st : AsRequests) (body : PyBody) : Except PyError AsRequests :=
  let st1 := enter st
  let stepBody := body st1
  match exitCm stepBody.1 with
  | .ok p =>
      match stepBody.2 with
      | some e => if p.2 then .ok p.1 else .error e
      | none => .ok p.1
  | .error e2 => .error e2

/-- Method `setCallback`. -/
def setCallback (st : AsRequests) (f : Callback) : AsRequests :=
  { st with callback := f }

/-- Method `setExceptionHandler`. -/
def setExceptionHandler (st : AsRequests) (h : Nat) : AsRequests :=
  { st with exceptionHandler := h }

/-- Method `get(url, **kwargs)`: `ensure_future(self._get(url, …))` appended to
`self.tasks`; the task is stamped with the current loop. -/
def get (st : AsRequests) (url : String) (transport : Except PyError Response) :
    AsRequests :=
  { st with tasks := st.tasks ++ [⟨"GET", url, transport, st.loopGen⟩] }

/-- Method `post(url, **kwargs)`. -/
def post (st : AsRequests) (url : String) (transport : Except PyError Response) :
    AsRequests :=
  { st with tasks := st.tasks ++ [⟨"POST", url, transport, st.loopGen⟩] }

/-- One enqueue instruction of a batch body: `(isPost, url, transport)`. -/
abbrev EnqOp := Bool × String × Except PyError Response

/-- A batch body that only enqueues the given requests. -/
def enqueueBody (reqs : List EnqOp) : PyBody :=
  fun st =>
    (reqs.foldl (fun s r => if r.1 then post s r.2.1 r.2.2 else get s r.2.1 r.2.2) st,
     none)

/-- The pending task an enqueue instruction creates at loop generation `g`. -/
def opTask (g : Nat) (r : EnqOp) : PendingTask :=
  ⟨if r.1 then "POST" else "GET", r.2.1, r.2.2, g⟩

/-- States whose callback bookkeeping lists are empty, as after `__enter__`. -/
def Clean (st : AsRequests) : Prop :=
  st.blockingCallbackTasks = [] ∧ st.asyncCallbackTasks = []

/-- All pending tasks belong to the current event loop (true in the normal
batch flow, where no `_executeTasks` ran since the tasks were enqueued). -/
def GensOk (st : AsRequests) : Prop :=
  ∀ t ∈ st.tasks, t.loopGen = st.loopGen

/-- The `ErrorRequest` built by the `except` clause of `_aHttpRequest`. -/
def errDataFor (t : PendingTask) (e : PyError) : Data :=
  Data.err { url := t.url, text := "", content := [], code := "404",
             error_info := e }

/-- Sample response and errors for the concrete witnesses below. -/
def resp0 : Response := { url := "u", statusCode := 200, text := "ok" }

def e0 : PyError := .timeoutError "timed out"

/-- A user callback that does not append to `result`. -/
def noopCb : Callback := .plain fun _ r => r

/-- Sample one-request batch states for the concrete witnesses below. -/
def sampleSt : AsRequests := mkAsRequests none none 1

def sampleBatch : AsRequests := get (mkAsRequests none none 1) "u" (.ok resp0)

def sampleBatch2 : AsRequests := get (mkAsRequests none none 2) "u" (.ok resp0)

/-- The entry `asyncCallback` appends to `asyncCallbackTasks` for one task. -/
def itemFor (c : Callback) (t : PendingTask) : AsyncItem :=
  match c with
  | .plain _ => .noneVal
  | .coro f => .coroItem f (dataFor t)

/-! ### Field-preservation and unfolding lemmas -/

theorem dispatchCallback_callbackMode (st : AsRequests) (d : Data) :
    (dispatchCallback st d).callbackMode = st.callbackMode := by
  simp only [dispatchCallback]
  repeat' split
  all_goals rfl

theorem dispatchCallback_callback (st : AsRequests) (d : Data) :
    (dispatchCallback st d).callback = st.callback := by
  simp only [dispatchCallback]
  repeat' split
  all_goals rfl

theorem dispatchCallback_tasks (st : AsRequests) (d : Data) :
    (dispatchCallback st d).tasks = st.tasks := by
  simp only [dispatchCallback]
  repeat' split
  all_goals rfl

theorem dispatchCallback_loopGen (st : AsRequests) (d : Data) :
    (dispatchCallback st d).loopGen = st.loopGen := by
  simp only [dispatchCallback]
  repeat' split
  all_goals rfl

theorem dispatchCallback_exceptionHandler (st : AsRequests) (d : Data) :
    (dispatchCallback st d).exceptionHandler = st.exceptionHandler := by
  simp only [dispatchCallback]
  repeat' split
  all_goals rfl

theorem dispatchCallback_blockingCallbackTasks (st : AsRequests) (d : Data) :
    (dispatchCallback st d).blockingCallbackTasks = st.blockingCallbackTasks := by
  simp only [dispatchCallback]
  repeat' split
  all_goals rfl

theorem dispatchCallback_events (st : AsRequests) (d : Data) :
    (dispatchCallback st d).events = st.events ++ [Event.callbackScheduled d] := by
  simp only [dispatchCallback]
  repeat' split
  all_goals rfl

theorem aHttpRequest_callbackMode (st : AsRequests) (t : PendingTask) :
    ((aHttpRequest st t).1).callbackMode = st.callbackMode := by
  unfold aHttpRequest
  cases h : httpRequest t.method t.url t.transport <;>
    simp only [h, dispatchCallback_callbackMode]

theorem aHttpRequest_callback (st : AsRequests) (t : PendingTask) :
    ((aHttpRequest st t).1).callback = st.callback := by
  unfold aHttpRequest
  cases h : httpRequest t.method t.url t.transport <;>
    simp only [h, dispatchCallback_callback]

theorem aHttpRequest_tasks (st : AsRequests) (t : PendingTask) :
    ((aHttpRequest st t).1).tasks = st.tasks := by
  unfold aHttpRequest
  cases h : httpRequest t.method t.url t.transport <;>
    simp only [h, dispatchCallback_tasks]

theorem aHttpRequest_loopGen (st : AsRequests) (t : PendingTask) :
    ((aHttpRequest st t).1).loopGen = st.loopGen := by
  unfold aHttpRequest
  cases h : httpRequest t.method t.url t.transport <;>
    simp only [h, dispatchCallback_loopGen]

theorem aHttpRequest_exceptionHandler (st : AsRequests) (t : PendingTask) :
    ((aHttpRequest st t).1).exceptionHandler = st.exceptionHandler := by
  unfold aHttpRequest
  cases h : httpRequest t.method t.url t.transport <;>
    simp only [h, dispatchCallback_exceptionHandler]

theorem aHttpRequest_blockingCallbackTasks (st : AsRequests) (t : PendingTask) :
    ((aHttpRequest st t).1).blockingCallbackTasks = st.blockingCallbackTasks := by
  unfold aHttpRequest
  cases h : httpRequest t.method t.url t.transport <;>
    simp only [h, dispatchCallback_blockingCallbackTasks]

/-- The data returned by one task run is `dataFor`. -/
theorem aHttpRequest_data (st : AsRequests) (t : PendingTask) :
    (aHttpRequest st t).2 = dataFor t := by
  unfold aHttpRequest dataFor
  cases h : httpRequest t.method t.url t.transport <;> simp only [h]

/-- The events of one task run: on success, a callback dispatch and the task
return; on failure, additionally the exception-handler call first. -/
theorem aHttpRequest_events (st : AsRequests) (t : PendingTask) :
    ((aHttpRequest st t).1).events =
      st.events ++
        (match httpRequest t.method t.url t.transport with
         | .ok _ => []
         | .error e => [Event.handlerCalled st.exceptionHandler e]) ++
        [Event.callbackScheduled (dataFor t), Event.taskReturned (dataFor t)] := by
  unfold aHttpRequest dataFor
  cases h : httpRequest t.method t.url t.transport <;>
    simp [h, dispatchCallback_events]

theorem runAll_nil (st : AsRequests) : runAll st [] = st := rfl

theorem runAll_cons (st : AsRequests) (t : PendingTask) (l : List PendingTask) :
    runAll st (t :: l) = runAll (aHttpRequest st t).1 l := rfl

theorem runAll_callbackMode (l : List PendingTask) :
    ∀ st : AsRequests, (runAll st l).callbackMode = st.callbackMode := by
  induction l with
  | nil => intro st; rfl
  | cons t l ih =>
      intro st
      rw [runAll_cons, ih, aHttpRequest_callbackMode]

theorem runAll_callback (l : List PendingTask) :
    ∀ st : AsRequests, (runAll st l).callback = st.callback := by
  induction l with
  | nil => intro st; rfl
  | cons t l ih =>
      intro st
      rw [runAll_cons, ih, aHttpRequest_callback]

theorem runAll_tasks (l : List PendingTask) :
    ∀ st : AsRequests, (runAll st l).tasks = st.tasks := by
  induction l with
  | nil => intro st; rfl
  | cons t l ih =>
      intro st
      rw [runAll_cons, ih, aHttpRequest_tasks]

theorem runAll_loopGen (l : List PendingTask) :
    ∀ st : AsRequests, (runAll st l).loopGen = st.loopGen := by
  induction l with
  | nil => intro st; rfl
  | cons t l ih =>
      intro st
      rw [runAll_cons, ih, aHttpRequest_loopGen]

theorem runAll_blockingCallbackTasks (l : List PendingTask) :
    ∀ st : AsRequests, (runAll st l).blockingCallbackTasks =
      st.blockingCallbackTasks := by
  induction l with
  | nil => intro st; rfl
  | cons t l ih =>
      intro st
      rw [runAll_cons, ih, aHttpRequest_blockingCallbackTasks]

/-- With the default callback outside modes 2 and 3, one task run appends its
data to `result`. -/
theorem aHttpRequest_result_default (st : AsRequests) (t : PendingTask)
    (h2 : st.callbackMode ≠ 2) (h3 : st.callbackMode ≠ 3)
    (hcb : st.callback = .plain defaultCbFun) :
    ((aHttpRequest st t).1).result = st.result ++ [dataFor t] := by
  unfold aHttpRequest dataFor dispatchCallback
  cases h : httpRequest t.method t.url t.transport <;>
    simp [h, h2, h3, hcb, defaultCbFun]

/-- In mode 2, `blockingCallback` appends the task's data to `result`. -/
theorem aHttpRequest_result_mode2 (st : AsRequests) (t : PendingTask)
    (hm : st.callbackMode = 2) :
    ((aHttpRequest st t).1).result = st.result ++ [dataFor t] := by
  unfold aHttpRequest dataFor dispatchCallback
  have h3 : st.callbackMode ≠ 3 := by rw [hm]; decide
  cases h : httpRequest t.method t.url t.transport <;> simp [h, h3, hm]

/-- In mode 3, `asyncCallback` appends one entry per task to
`asyncCallbackTasks`. -/
theorem aHttpRequest_async_mode3 (st : AsRequests) (t : PendingTask)
    (hm : st.callbackMode = 3) :
    ((aHttpRequest st t).1).asyncCallbackTasks =
      st.asyncCallbackTasks ++ [itemFor st.callback t] := by
  unfold aHttpRequest dispatchCallback itemFor
  cases h : httpRequest t.method t.url t.transport <;>
    cases hcb : st.callback <;> simp [h, hm, hcb, dataFor]

theorem runAll_result_default (l : List PendingTask) :
    ∀ st : AsRequests, st.callbackMode ≠ 2 → st.callbackMode ≠ 3 →
      st.callback = .plain defaultCbFun →
      (runAll st l).result = st.result ++ l.map dataFor := by
  induction l with
  | nil => intro st _ _ _; simp [runAll_nil]
  | cons t l ih =>
      intro st h2 h3 hcb
      rw [runAll_cons,
        ih _ (by rw [aHttpRequest_callbackMode]; exact h2)
          (by rw [aHttpRequest_callbackMode]; exact h3)
          (by rw [aHttpRequest_callback]; exact hcb),
        aHttpRequest_result_default st t h2 h3 hcb]
      simp

theorem runAll_result_mode2 (l : List PendingTask) :
    ∀ st : AsRequests, st.callbackMode = 2 →
      (runAll st l).result = st.result ++ l.map dataFor := by
  induction l with
  | nil => intro st _; simp [runAll_nil]
  | cons t l ih =>
      intro st hm
      rw [runAll_cons, ih _ (by rw [aHttpRequest_callbackMode]; exact hm),
        aHttpRequest_result_mode2 st t hm]
      simp

theorem runAll_async_mode3 (l : List PendingTask) :
    ∀ st : AsRequests, st.callbackMode = 3 →
      (runAll st l).asyncCallbackTasks =
        st.asyncCallbackTasks ++ l.map (itemFor st.callback) := by
  induction l with
  | nil => intro st _; simp [runAll_nil]
  | cons t l ih =>
      intro st hm
      rw [runAll_cons, ih _ (by rw [aHttpRequest_callbackMode]; exact hm),
        aHttpRequest_async_mode3 st t hm, aHttpRequest_callback]
      simp

/-- One task run records exactly one `taskReturned` event. -/
theorem aHttpRequest_taskReturned_count (st : AsRequests) (t : PendingTask) :
    (((aHttpRequest st t).1).events.countP Event.isTaskReturned) =
      st.events.countP Event.isTaskReturned + 1 := by
  rw [aHttpRequest_events]
  cases h : httpRequest t.method t.url t.transport <;>
    simp [List.countP_append, List.countP_cons, Event.isTaskReturned]

/-- One task run records no `callbackCompleted` event. -/
theorem aHttpRequest_callbackCompleted_count (st : AsRequests) (t : PendingTask) :
    (((aHttpRequest st t).1).events.countP Event.isCallbackCompleted) =
      st.events.countP Event.isCallbackCompleted := by
  rw [aHttpRequest_events]
  cases h : httpRequest t.method t.url t.transport <;>
    simp [List.countP_append, List.countP_cons, Event.isCallbackCompleted]

theorem runAll_taskReturned_count (l : List PendingTask) :
    ∀ st : AsRequests, ((runAll st l).events.countP Event.isTaskReturned) =
      st.events.countP Event.isTaskReturned + l.length := by
  induction l with
  | nil => intro st; simp [runAll_nil]
  | cons t l ih =>
      intro st
      rw [runAll_cons, ih, aHttpRequest_taskReturned_count]
      simp
      omega

theorem runAll_callbackCompleted_count (l : List PendingTask) :
    ∀ st : AsRequests, ((runAll st l).events.countP Event.isCallbackCompleted) =
      st.events.countP Event.isCallbackCompleted := by
  induction l with
  | nil => intro st; simp [runAll_nil]
  | cons t l ih =>
      intro st
      rw [runAll_cons, ih, aHttpRequest_callbackCompleted_count]

theorem scheduleBlocking_blockingCallbackTasks (l : List Data) :
    ∀ st : AsRequests, (scheduleBlocking st l).blockingCallbackTasks =
      st.blockingCallbackTasks ++ l := by
  induction l with
  | nil => intro st; simp [scheduleBlocking]
  | cons d l ih =>
      intro st
      show (scheduleBlocking _ l).blockingCallbackTasks = _
      rw [ih]
      simp

theorem scheduleBlocking_tasks (l : List Data) :
    ∀ st : AsRequests, (scheduleBlocking st l).tasks = st.tasks := by
  induction l with
  | nil => intro st; simp [scheduleBlocking]
  | cons d l ih =>
      intro st
      show (scheduleBlocking _ l).tasks = _
      rw [ih]

theorem scheduleBlocking_loopGen (l : List Data) :
    ∀ st : AsRequests, (scheduleBlocking st l).loopGen = st.loopGen := by
  induction l with
  | nil => intro st; simp [scheduleBlocking]
  | cons d l ih =>
      intro st
      show (scheduleBlocking _ l).loopGen = _
      rw [ih]

theorem scheduleBlocking_callbackMode (l : List Data) :
    ∀ st : AsRequests, (scheduleBlocking st l).callbackMode = st.callbackMode := by
  induction l with
  | nil => intro st; simp [scheduleBlocking]
  | cons d l ih =>
      intro st
      show (scheduleBlocking _ l).callbackMode = _
      rw [ih]

theorem scheduleBlocking_callbackCompleted_count (l : List Data) :
    ∀ st : AsRequests,
      ((scheduleBlocking st l).events.countP Event.isCallbackCompleted) =
        st.events.countP Event.isCallbackCompleted := by
  induction l with
  | nil => intro st; simp [scheduleBlocking]
  | cons d l ih =>
      intro st
      show ((scheduleBlocking _ l).events.countP _) = _
      rw [ih]
      simp [List.countP_append, List.countP_cons, Event.isCallbackCompleted]

theorem runBlocking_blockingCallbackTasks (l : List Data) :
    ∀ st : AsRequests, (runBlocking st l).blockingCallbackTasks =
      st.blockingCallbackTasks := by
  induction l with
  | nil => intro st; simp [runBlocking]
  | cons d l ih =>
      intro st
      show (runBlocking _ l).blockingCallbackTasks = _
      rw [ih]
      rcases hcb : st.callback with f | f <;> simp [hcb]

theorem runBlocking_tasks (l : List Data) :
    ∀ st : AsRequests, (runBlocking st l).tasks = st.tasks := by
  induction l with
  | nil => intro st; simp [runBlocking]
  | cons d l ih =>
      intro st
      show (runBlocking _ l).tasks = _
      rw [ih]
      rcases hcb : st.callback with f | f <;> simp [hcb]

theorem runBlocking_loopGen (l : List Data) :
    ∀ st : AsRequests, (runBlocking st l).loopGen = st.loopGen := by
  induction l with
  | nil => intro st; simp [runBlocking]
  | cons d l ih =>
      intro st
      show (runBlocking _ l).loopGen = _
      rw [ih]
      rcases hcb : st.callback with f | f <;> simp [hcb]

theorem runBlocking_callbackMode (l : List Data) :
    ∀ st : AsRequests, (runBlocking st l).callbackMode = st.callbackMode := by
  induction l with
  | nil => intro st; simp [runBlocking]
  | cons d l ih =>
      intro st
      show (runBlocking _ l).callbackMode = _
      rw [ih]
      rcases hcb : st.callback with f | f <;> simp [hcb]

/-- Awaiting the blocking-callback futures records one `callbackCompleted`
event per scheduled callback before `_executeTasks` returns. -/
theorem runBlocking_callbackCompleted_count (l : List Data) :
    ∀ st : AsRequests,
      ((runBlocking st l).events.countP Event.isCallbackCompleted) =
        st.events.countP Event.isCallbackCompleted + l.length := by
  induction l with
  | nil => intro st; simp [runBlocking]
  | cons d l ih =>
      intro st
      show ((runBlocking _ l).events.countP _) = _
      rw [ih]
      cases hcb : st.callback <;>
        simp [hcb, List.countP_append, List.countP_cons,
          Event.isCallbackCompleted] <;> omega

theorem gens_any_false (st : AsRequests) (hg : GensOk st) :
    (st.tasks.any fun t => t.loopGen != st.loopGen) = false := by
  simp only [List.any_eq_false, bne_iff_ne, ne_eq, not_not]
  exact hg

/-- Method `_executeTasks` outside modes 2 and 3: wait for all tasks, swap in a fresh
event loop, return. -/
theorem executeTasks_other (st : AsRequests) (hne : st.tasks ≠ [])
    (hg : GensOk st) (h2 : st.callbackMode ≠ 2) (h3 : st.callbackMode ≠ 3) :
    executeTasks st = .ok { runAll st st.tasks with loopGen := st.loopGen + 1 } := by
  have he : st.tasks.isEmpty = false := by
    simpa [List.isEmpty_iff] using hne
  have hmode : (runAll st st.tasks).callbackMode = st.callbackMode :=
    runAll_callbackMode _ _
  unfold executeTasks
  rw [he, gens_any_false st hg]
  simp only [Bool.false_eq_true, if_false]
  rw [if_neg (by simp [hmode, h3]), if_neg (by simp [hmode, h2]),
    runAll_loopGen]

/-- Any-`isNoneVal` over the items `asyncCallback` appends. -/
theorem map_itemFor_any (c : Callback) (l : List PendingTask) :
    ((l.map (itemFor c)).any AsyncItem.isNoneVal) =
      (!c.isCoro && !l.isEmpty) := by
  cases c <;> induction l <;>
    simp [itemFor, AsyncItem.isNoneVal, Callback.isCoro, *]

/-- Method `_executeTasks` in mode 2: wait for all tasks, schedule the callback once
per `result` entry, track the futures, await them all. -/
theorem executeTasks_mode2 (st : AsRequests) (hne : st.tasks ≠ [])
    (hg : GensOk st) (hm : st.callbackMode = 2)
    (hb : st.blockingCallbackTasks = []) :
    ∃ st', executeTasks st = .ok st' ∧
      st'.blockingCallbackTasks = (runAll st st.tasks).result ∧
      st'.tasks = st.tasks ∧
      (st'.events.countP Event.isCallbackCompleted) =
        st.events.countP Event.isCallbackCompleted +
          (runAll st st.tasks).result.length := by
  have he : st.tasks.isEmpty = false := by
    simpa [List.isEmpty_iff] using hne
  have hmode : (runAll st st.tasks).callbackMode = st.callbackMode :=
    runAll_callbackMode _ _
  have hres : (runAll st st.tasks).result = st.result ++ st.tasks.map dataFor :=
    runAll_result_mode2 _ _ hm
  have hresne : (runAll st st.tasks).result ≠ [] := by
    rw [hres]
    intro hcontra
    rcases List.append_eq_nil.mp hcontra with ⟨-, hmap⟩
    exact hne (List.map_eq_nil_iff.mp hmap)
  unfold executeTasks
  rw [he, gens_any_false st hg]
  simp only [Bool.false_eq_true, if_false]
  rw [if_neg (by simp [hmode, hm]), if_pos (by simp [hmode, hm])]
  unfold mode2Run
  set st2 : AsRequests := { runAll st st.tasks with loopGen := (runAll st st.tasks).loopGen + 1 } with hst2
  have hst2res : st2.result = (runAll st st.tasks).result := rfl
  have hst2blk : st2.blockingCallbackTasks = [] := by
    rw [hst2]
    show (runAll st st.tasks).blockingCallbackTasks = []
    rw [runAll_blockingCallbackTasks, hb]
  have hsched : (scheduleBlocking st2 st2.result).blockingCallbackTasks =
      (runAll st st.tasks).result := by
    rw [scheduleBlocking_blockingCallbackTasks, hst2blk, hst2res]
    simp
  have hschedne : ((scheduleBlocking st2 st2.result).blockingCallbackTasks).isEmpty = false := by
    rw [hsched]
    simpa [List.isEmpty_iff] using hresne
  simp only [hschedne, Bool.false_eq_true, if_false]
  refine ⟨_, rfl, ?_, ?_, ?_⟩
  · rw [runBlocking_blockingCallbackTasks, hsched]
  · rw [runBlocking_tasks, scheduleBlocking_tasks]
    show (runAll st st.tasks).tasks = st.tasks
    exact runAll_tasks _ _
  · rw [runBlocking_callbackCompleted_count, hsched,
      scheduleBlocking_callbackCompleted_count]
    have : st2.events.countP Event.isCallbackCompleted =
        st.events.countP Event.isCallbackCompleted := by
      rw [hst2]
      show ((runAll st st.tasks).events.countP _) = _
      exact runAll_callbackCompleted_count _ _
    rw [this]

/-- Success characterization of `_executeTasks` from a state with empty
callback bookkeeping (as after `__enter__`) whose tasks belong to the current
loop: it depends only on the task list being nonempty and, in mode 3, on the
callback being a coroutine function — never on the transport outcomes. -/
theorem executeTasks_isOk_char (st : AsRequests) (hclean : Clean st)
    (hg : GensOk st) :
    (executeTasks st).isOk = true ↔
      (st.tasks ≠ [] ∧ (st.callbackMode = 3 → st.callback.isCoro = true)) := by
  rcases hclean with ⟨hb, ha⟩
  by_cases hne : st.tasks = []
  · have he : st.tasks.isEmpty = true := by simp [hne]
    unfold executeTasks
    rw [he]
    simp [hne, Except.isOk, Except.toBool]
  · have he : st.tasks.isEmpty = false := by
      simpa [List.isEmpty_iff] using hne
    have hmode : (runAll st st.tasks).callbackMode = st.callbackMode :=
      runAll_callbackMode _ _
    by_cases hm3 : st.callbackMode = 3
    · have hasync : (runAll st st.tasks).asyncCallbackTasks =
          st.tasks.map (itemFor st.callback) := by
        rw [runAll_async_mode3 _ _ hm3, ha]
        simp
      unfold executeTasks
      rw [he, gens_any_false st hg]
      simp only [Bool.false_eq_true, if_false]
      rw [if_pos (by simp [hmode, hm3])]
      unfold mode3Run
      cases hcb : st.callback with
      | plain f =>
          have hany : ((runAll st st.tasks).asyncCallbackTasks.any AsyncItem.isNoneVal) = true := by
            rw [hasync, map_itemFor_any, hcb]
            simp [Callback.isCoro, he]
          show ((if _ then _ else _ : Except PyError AsRequests).isOk = true) ↔ _
          rw [if_pos (by exact hany)]
          simp [hne, hm3, hcb, Callback.isCoro, Except.isOk, Except.toBool]
      | coro f =>
          have hany : ((runAll st st.tasks).asyncCallbackTasks.any AsyncItem.isNoneVal) = false := by
            rw [hasync, map_itemFor_any, hcb]
            simp [Callback.isCoro]
          have hemp : ((runAll st st.tasks).asyncCallbackTasks).isEmpty = false := by
            rw [hasync]
            simp [List.isEmpty_iff, hne]
          show ((if _ then _ else if _ then _ else _ : Except PyError AsRequests).isOk = true) ↔ _
          rw [if_neg (by simp [hany]), if_neg (by simp [hemp])]
          simp [hne, hcb, Callback.isCoro, Except.isOk, Except.toBool]
    · by_cases hm2 : st.callbackMode = 2
      · rcases executeTasks_mode2 st hne hg hm2 hb with ⟨st', hok, -, -, -⟩
        rw [hok]
        simp [hne, hm3, Except.isOk, Except.toBool]
      · rw [executeTasks_other st hne hg hm2 hm3]
        exact ⟨fun _ => ⟨hne, fun hc => absurd hc hm3⟩, fun _ => rfl⟩

/-- Running a body that only calls `get`/`post` appends the matching pending
tasks, stamped with the current loop, and changes nothing else. -/
theorem enqueueFold (reqs : List EnqOp) :
    ∀ st : AsRequests,
      (reqs.foldl
        (fun s r => if r.1 then post s r.2.1 r.2.2 else get s r.2.1 r.2.2) st) =
        { st with tasks := st.tasks ++ reqs.map (opTask st.loopGen) } := by
  induction reqs with
  | nil =>
      intro st
      show st = _
      rw [List.map_nil, List.append_nil]
  | cons r reqs ih =>
      intro st
      rw [List.foldl_cons]
      have hstep : (if r.1 then post st r.2.1 r.2.2 else get st r.2.1 r.2.2) =
          { st with tasks := st.tasks ++ [opTask st.loopGen r] } := by
        rcases r with ⟨b, u, tr⟩
        cases b <;> rfl
      rw [hstep, ih]
      simp [opTask]

theorem enqueueBody_fst (reqs : List EnqOp) (st : AsRequests) :
    (enqueueBody reqs st).1 =
      { st with tasks := st.tasks ++ reqs.map (opTask st.loopGen) } :=
  enqueueFold reqs st

theorem enqueueBody_snd (reqs : List EnqOp) (st : AsRequests) :
    (enqueueBody reqs st).2 = none := rfl

/-- Outside modes 2 and 3, one task run applies whatever plain callback is
current at completion time to `result`. -/
theorem aHttpRequest_result_plain (st : AsRequests) (t : PendingTask) (f : CbFun)
    (h2 : st.callbackMode ≠ 2) (h3 : st.callbackMode ≠ 3)
    (hcb : st.callback = .plain f) :
    ((aHttpRequest st t).1).result = f (dataFor t) st.result := by
  unfold aHttpRequest dataFor dispatchCallback
  cases h : httpRequest t.method t.url t.transport <;> simp [h, h2, h3, hcb]

/-- Unfolding of `runScope` when the scope exit succeeds. -/
theorem runScope_ok (st : AsRequests) (body : PyBody) (st2 stf : AsRequests)
    (hb1 : (body (enter st)).1 = st2) (hb2 : (body (enter st)).2 = none)
    (hx : executeTasks st2 = .ok stf) :
    runScope st body = .ok stf := by
  simp only [runScope, exitCm]
  rw [hb1, hb2, hx]
  rfl

/-- If `runScope` propagates an exception, it is the one raised inside
`_executeTasks`, never the body's. -/
theorem runScope_error (st : AsRequests) (body : PyBody) (e : PyError)
    (h : runScope st body = .error e) :
    executeTasks (body (enter st)).1 = .error e := by
  simp only [runScope, exitCm] at h
  cases hx : executeTasks (body (enter st)).1 with
  | ok a =>
      rw [hx] at h
      cases hb : (body (enter st)).2 with
      | some e2 => rw [hb] at h; simp [Except.map] at h
      | none => rw [hb] at h; simp [Except.map] at h
  | error e2 =>
      rw [hx] at h
      simp [Except.map] at h
      rw [h]

/-! ### Claim theorems -/

/-- C1, counterexample: one request enqueued under a user-supplied callback
that does not append to `result` (callbackMode 1) completes with an empty
`result`, not with one entry.  The claim's "exactly N entries … for every
choice of callback and callbackMode" fails because `result` is populated only
by the callback. -/
theorem c1_counterexample_custom_callback :
    (runScope (mkAsRequests (some noopCb) none 1)
        (enqueueBody [(false, "u", .ok resp0)])).toOption.map
      (fun s => s.result) = some [] ∧ (1 : Nat) ≠ 0 := by
  exact ⟨rfl, by decide⟩

/-- C1 (amended): with the default callback and a callbackMode other than 2
and 3 (the fire-and-forget default), a batch of N ≥ 1 enqueued requests
completes with exactly N entries in `result`, each a response or an
`ErrorRequest`; with a user-supplied callback, `result` holds whatever the
callback puts there, and modes 2 and 3 account differently. -/
theorem c1_batch_result_count (reqs : List EnqOp) (m : Int)
    (h2 : m ≠ 2) (h3 : m ≠ 3) (hne : reqs ≠ []) :
    ∃ stf, runScope (mkAsRequests none none m) (enqueueBody reqs) = .ok stf ∧
      stf.result.length = reqs.length ∧
      ∀ d ∈ stf.result, (∃ r, d = Data.response r) ∨ (∃ q, d = Data.err q) := by
  have hb1 : (enqueueBody reqs (enter (mkAsRequests none none m))).1 =
      { mkAsRequests none none m with tasks := reqs.map (opTask 0) } := by
    rw [show enter (mkAsRequests none none m) = mkAsRequests none none m from rfl,
      enqueueBody_fst]
    rfl
  have hne2 : ({ mkAsRequests none none m with
      tasks := reqs.map (opTask 0) } : AsRequests).tasks ≠ [] := by
    show reqs.map (opTask 0) ≠ []
    simpa using hne
  have hg2 : GensOk { mkAsRequests none none m with tasks := reqs.map (opTask 0) } := by
    intro t ht
    show t.loopGen = 0
    rcases List.mem_map.mp ht with ⟨r, -, hr⟩
    rw [← hr]
    rfl
  have hx := executeTasks_other
    { mkAsRequests none none m with tasks := reqs.map (opTask 0) }
    hne2 hg2 (by exact h2) (by exact h3)
  refine ⟨{ runAll { mkAsRequests none none m with tasks := reqs.map (opTask 0) }
      (reqs.map (opTask 0)) with
      loopGen := ({ mkAsRequests none none m with
        tasks := reqs.map (opTask 0) } : AsRequests).loopGen + 1 },
    runScope_ok _ _ _ _ hb1 rfl hx, ?_, ?_⟩
  · show (runAll { mkAsRequests none none m with
        tasks := reqs.map (opTask 0) } (reqs.map (opTask 0))).result.length = _
    rw [runAll_result_default _ _ (by exact h2) (by exact h3) rfl]
    simp [mkAsRequests]
  · intro d _
    cases d with
    | response r => exact Or.inl ⟨r, rfl⟩
    | err q => exact Or.inr ⟨q, rfl⟩

/-- C1 witness. -/
theorem c1_batch_result_count_witness :
    ∃ stf, runScope (mkAsRequests none none 1)
        (enqueueBody [(false, "u", .ok resp0)]) = .ok stf ∧
      stf.result.length = 1 ∧
      ∀ d ∈ stf.result, (∃ r, d = Data.response r) ∨ (∃ q, d = Data.err q) :=
  c1_batch_result_count [(false, "u", .ok resp0)] 1 (by decide) (by decide)
    (List.cons_ne_nil _ _)

/-- C2: a transport-level exception is caught inside the per-request execution
unit and converted into an `ErrorRequest` result rather than propagating, and
the success of `_executeTasks` from a fresh batch state is characterized
entirely without reference to transport outcomes — an individual request's
failure never makes enqueue or the wait-for-all throw. -/
theorem c2_transport_failure_isolated :
    (∀ (st : AsRequests) (t : PendingTask) (e : PyError),
       httpRequest t.method t.url t.transport = .error e →
       ∃ q, (aHttpRequest st t).2 = Data.err q) ∧
    (∀ st : AsRequests, Clean st → GensOk st →
       ((executeTasks st).isOk = true ↔
         (st.tasks ≠ [] ∧ (st.callbackMode = 3 → st.callback.isCoro = true)))) := by
  constructor
  · intro st t e h
    refine ⟨{ url := t.url, text := "", content := [], code := "404",
              error_info := e }, ?_⟩
    rw [aHttpRequest_data]
    unfold dataFor
    rw [h]
  · exact executeTasks_isOk_char

/-- C2 witness. -/
theorem c2_transport_failure_isolated_witness :
    (∃ q, (aHttpRequest sampleSt ⟨"GET", "u", .error e0, 0⟩).2 = Data.err q) ∧
    ((executeTasks (get sampleSt "u" (.error e0))).isOk = true ↔
      ((get sampleSt "u" (.error e0)).tasks ≠ [] ∧
       ((get sampleSt "u" (.error e0)).callbackMode = 3 →
        (get sampleSt "u" (.error e0)).callback.isCoro = true))) :=
  ⟨c2_transport_failure_isolated.1 sampleSt ⟨"GET", "u", .error e0, 0⟩ e0
     (by decide),
   c2_transport_failure_isolated.2 (get sampleSt "u" (.error e0)) ⟨rfl, rfl⟩
     (by
       intro t ht
       cases ht with
       | head => rfl
       | tail _ h => cases h)⟩

/-- C3: the `ErrorRequest` produced for a failed request carries exactly the
request's url, an empty text, an empty byte content, the fixed sentinel code
"404" regardless of the kind of failure, and the caught error in
`error_info`. -/
theorem c3_error_record_shape (st : AsRequests) (t : PendingTask) (e : PyError)
    (h : httpRequest t.method t.url t.transport = .error e) :
    (aHttpRequest st t).2 =
      Data.err { url := t.url, text := "", content := [], code := "404",
                 error_info := e } := by
  rw [aHttpRequest_data]
  unfold dataFor
  rw [h]

/-- C3 witness. -/
theorem c3_error_record_shape_witness :
    (aHttpRequest sampleSt ⟨"POST", "u", .error e0, 0⟩).2 =
      Data.err { url := "u", text := "", content := [], code := "404",
                 error_info := e0 } :=
  c3_error_record_shape sampleSt ⟨"POST", "u", .error e0, 0⟩ e0 (by decide)

/-- C4: for a failed request the exception handler is invoked exactly once,
with the caught error, synchronously inside the per-request execution unit,
and this happens before the `ErrorRequest` is dispatched to the callback and
before the task returns it. -/
theorem c4_handler_called_once_before_result (st : AsRequests)
    (t : PendingTask) (e : PyError)
    (h : httpRequest t.method t.url t.transport = .error e) :
    ((aHttpRequest st t).1).events =
      st.events ++ [Event.handlerCalled st.exceptionHandler e,
        Event.callbackScheduled (errDataFor t e),
        Event.taskReturned (errDataFor t e)] ∧
    ((aHttpRequest st t).1).events.countP Event.isHandlerCalled =
      st.events.countP Event.isHandlerCalled + 1 := by
  have hdf : dataFor t = errDataFor t e := by
    unfold dataFor errDataFor
    rw [h]
  have hev := aHttpRequest_events st t
  rw [h, hdf] at hev
  constructor
  · rw [hev]
    simp
  · rw [hev]
    simp [List.countP_append, List.countP_cons, Event.isHandlerCalled]

/-- C4 witness. -/
theorem c4_handler_called_once_before_result_witness :
    ((aHttpRequest sampleSt ⟨"GET", "u", .error e0, 0⟩).1).events =
      sampleSt.events ++ [Event.handlerCalled sampleSt.exceptionHandler e0,
        Event.callbackScheduled (errDataFor ⟨"GET", "u", .error e0, 0⟩ e0),
        Event.taskReturned (errDataFor ⟨"GET", "u", .error e0, 0⟩ e0)] ∧
    ((aHttpRequest sampleSt ⟨"GET", "u", .error e0, 0⟩).1).events.countP
        Event.isHandlerCalled =
      sampleSt.events.countP Event.isHandlerCalled + 1 :=
  c4_handler_called_once_before_result sampleSt ⟨"GET", "u", .error e0, 0⟩ e0
    (by decide)

/-- C5, counterexample: exiting a batch scope with zero enqueued requests is
not a no-op — `asyncio.wait` on the empty task list raises `ValueError`, which
escapes `__exit__` to the caller. -/
theorem c5_counterexample_empty_batch :
    runScope (mkAsRequests none none 1) (fun s => (s, none)) =
      .error (.valueError waitEmptyMsg) := rfl

/-- C5 (amended): in the default callback mode, the wait-for-all operation
with at least one pending task (all enqueued in the current batch) runs every
task to completion before returning; but with zero pending tasks it raises
`ValueError` instead of being a no-op, and calling it a second time raises
`ValueError` as well (the event loop was replaced), instead of being
idempotent. -/
theorem c5_await_all_behavior (st : AsRequests) (hg : GensOk st)
    (h2 : st.callbackMode ≠ 2) (h3 : st.callbackMode ≠ 3) :
    (st.tasks = [] → executeTasks st = .error (.valueError waitEmptyMsg)) ∧
    (st.tasks ≠ [] → ∃ st2, executeTasks st = .ok st2 ∧
      st2.events.countP Event.isTaskReturned =
        st.events.countP Event.isTaskReturned + st.tasks.length ∧
      st2.tasks = st.tasks ∧ st2.loopGen = st.loopGen + 1 ∧
      executeTasks st2 = .error (.valueError loopMismatchMsg)) := by
  constructor
  · intro he
    unfold executeTasks
    rw [if_pos (by simp [he])]
  · intro hne
    rw [executeTasks_other st hne hg h2 h3]
    refine ⟨_, rfl, ?_, ?_, rfl, ?_⟩
    · show ((runAll st st.tasks).events.countP _) = _
      exact runAll_taskReturned_count _ _
    · show (runAll st st.tasks).tasks = st.tasks
      exact runAll_tasks _ _
    · have h2tasks : ({ runAll st st.tasks with
          loopGen := st.loopGen + 1 } : AsRequests).tasks = st.tasks := by
        show (runAll st st.tasks).tasks = st.tasks
        exact runAll_tasks _ _
      have hemp : (({ runAll st st.tasks with
          loopGen := st.loopGen + 1 } : AsRequests).tasks).isEmpty = false := by
        rw [h2tasks]
        simpa [List.isEmpty_iff] using hne
      have hany : (({ runAll st st.tasks with
          loopGen := st.loopGen + 1 } : AsRequests).tasks.any fun t =>
            t.loopGen != ({ runAll st st.tasks with
              loopGen := st.loopGen + 1 } : AsRequests).loopGen) = true := by
        rw [h2tasks]
        rcases List.exists_mem_of_ne_nil st.tasks hne with ⟨t, ht⟩
        refine List.any_eq_true.mpr ⟨t, ht, ?_⟩
        have hgen := hg t ht
        show (t.loopGen != st.loopGen + 1) = true
        rw [hgen]
        simp
      unfold executeTasks
      rw [hemp]
      simp only [Bool.false_eq_true, if_false]
      rw [if_pos (by rw [hany])]

/-- C5 witness. -/
theorem c5_await_all_behavior_witness :
    ∃ st2, executeTasks sampleBatch = .ok st2 ∧
      st2.events.countP Event.isTaskReturned =
        sampleBatch.events.countP Event.isTaskReturned + sampleBatch.tasks.length ∧
      st2.tasks = sampleBatch.tasks ∧ st2.loopGen = sampleBatch.loopGen + 1 ∧
      executeTasks st2 = .error (.valueError loopMismatchMsg) :=
  (c5_await_all_behavior sampleBatch
      (by
        intro t ht
        cases ht with
        | head => rfl
        | tail _ h => cases h)
      (by decide) (by decide)).2 (List.cons_ne_nil _ _)

/-- C6, counterexample: a task with method "PUT" handed to the internal
request machinery is not rejected at enqueue time with any ConfigurationError
— no method validation exists.  It is dispatched, fails at execution time with
`UnboundLocalError` (`data` never assigned in `_httpRequest`), and that error
is caught and converted to an `ErrorRequest`; the batch completes normally. -/
theorem c6_counterexample_put_dispatched :
    (executeTasks { mkAsRequests none none 1 with
        tasks := [⟨"PUT", "u", .ok resp0, 0⟩] }).toOption.map (fun s => s.result) =
      some [Data.err { url := "u", text := "", content := [], code := "404",
                       error_info := .unboundLocalError unboundLocalMsg }] := by
  decide

/-- C6 (amended): the public enqueue surface offers only `get` and `post` and
performs no validation (enqueuing always succeeds and appends a task); a
request whose method is neither GET nor POST is dispatched anyway and fails
only at execution time, inside the worker, with `UnboundLocalError`, which the
per-request unit converts to an `ErrorRequest` — no ConfigurationError is
reported at enqueue time. -/
theorem c6_invalid_method_deferred (st : AsRequests) (u : String)
    (tr : Except PyError Response) (g : Nat) (m : String)
    (h1 : upper m ≠ "GET") (hp : upper m ≠ "POST") :
    httpRequest m u tr = .error (.unboundLocalError unboundLocalMsg) ∧
    (aHttpRequest st ⟨m, u, tr, g⟩).2 =
      Data.err { url := u, text := "", content := [], code := "404",
                 error_info := .unboundLocalError unboundLocalMsg } ∧
    (get st u tr).tasks = st.tasks ++ [⟨"GET", u, tr, st.loopGen⟩] := by
  have hhr : httpRequest m u tr = .error (.unboundLocalError unboundLocalMsg) := by
    unfold httpRequest
    rw [if_neg h1, if_neg hp]
  refine ⟨hhr, ?_, rfl⟩
  rw [aHttpRequest_data]
  unfold dataFor
  dsimp only
  rw [hhr]

/-- C6 witness. -/
theorem c6_invalid_method_deferred_witness :
    httpRequest "PUT" "u" (.ok resp0) =
      .error (.unboundLocalError unboundLocalMsg) ∧
    (aHttpRequest sampleSt ⟨"PUT", "u", .ok resp0, 0⟩).2 =
      Data.err { url := "u", text := "", content := [], code := "404",
                 error_info := .unboundLocalError unboundLocalMsg } ∧
    (get sampleSt "u" (.ok resp0)).tasks =
      sampleSt.tasks ++ [⟨"GET", "u", .ok resp0, sampleSt.loopGen⟩] :=
  c6_invalid_method_deferred sampleSt "u" (.ok resp0) 0 "PUT"
    (by decide) (by decide)

/-- C7: entering the batch scope resets `tasks`, `result`,
`blockingCallbackTasks` and `asyncCallbackTasks`, so a scope run is entirely
independent of whatever a previous batch left in those fields — no result or
pending task from a previous batch is observable in a subsequent one. -/
theorem c7_scope_reset_no_leak (st : AsRequests)
    (t1 : List PendingTask) (r1 : List Data) (b1 : List Data)
    (a1 : List AsyncItem) (t2 : List PendingTask) (r2 : List Data)
    (b2 : List Data) (a2 : List AsyncItem) (body : PyBody) :
    runScope { st with tasks := t1, result := r1, blockingCallbackTasks := b1,
                       asyncCallbackTasks := a1 } body =
    runScope { st with tasks := t2, result := r2, blockingCallbackTasks := b2,
                       asyncCallbackTasks := a2 } body := rfl

/-- C8: in BLOCKING callback mode (callbackMode 2), the wait-for-all operation
returns only after tracking one secondary callback task per collected result
and recording the completion of every one of them: the returned state's
`blockingCallbackTasks` lists every result entry, and its trace holds exactly
one `callbackCompleted` event per tracked task. -/
theorem c8_blocking_mode_awaits_callbacks (st : AsRequests) (hclean : Clean st)
    (hg : GensOk st) (hm : st.callbackMode = 2) (hne : st.tasks ≠ []) :
    ∃ stf, executeTasks st = .ok stf ∧
      stf.blockingCallbackTasks = (runAll st st.tasks).result ∧
      stf.events.countP Event.isCallbackCompleted =
        st.events.countP Event.isCallbackCompleted +
          stf.blockingCallbackTasks.length := by
  rcases executeTasks_mode2 st hne hg hm hclean.1 with ⟨stf, hok, hb, -, hcount⟩
  refine ⟨stf, hok, hb, ?_⟩
  rw [hb]
  exact hcount

/-- C8 witness. -/
theorem c8_blocking_mode_awaits_callbacks_witness :
    ∃ stf, executeTasks sampleBatch2 = .ok stf ∧
      stf.blockingCallbackTasks = (runAll sampleBatch2 sampleBatch2.tasks).result ∧
      stf.events.countP Event.isCallbackCompleted =
        sampleBatch2.events.countP Event.isCallbackCompleted +
          stf.blockingCallbackTasks.length :=
  c8_blocking_mode_awaits_callbacks sampleBatch2 ⟨rfl, rfl⟩
    (by
      intro t ht
      cases ht with
      | head => rfl
      | tail _ h => cases h)
    rfl (List.cons_ne_nil _ _)

/-- C9, counterexample: a request enqueued while a non-appending callback A is
current, with the callback then replaced by the appending default B before the
batch runs, is delivered to B, not to A: the final `result` is nonempty, while
enqueue-time capture (the claim) would leave it empty.  Replacement does
affect requests already enqueued and still in flight. -/
theorem c9_counterexample_replacement_affects_inflight :
    (executeTasks (setCallback
        (get (mkAsRequests (some noopCb) none 1) "u" (.ok resp0))
        (.plain defaultCbFun))).toOption.map (fun s => s.result) =
      some [Data.response resp0] ∧
    ([Data.response resp0] : List Data) ≠ [] := by
  exact ⟨by decide, by decide⟩

/-- C9 (amended): the callback (and exception handler) reference is read at
completion/dispatch time, not captured at enqueue time: replacing it commutes
with enqueuing, and a task run applies whatever plain callback is current when
the task completes — so `setCallback` affects all requests still in flight. -/
theorem c9_callback_read_at_completion :
    (∀ (st : AsRequests) (u : String) (tr : Except PyError Response)
       (c : Callback), setCallback (get st u tr) c = get (setCallback st c) u tr) ∧
    (∀ (st : AsRequests) (u : String) (tr : Except PyError Response)
       (c : Callback), setCallback (post st u tr) c = post (setCallback st c) u tr) ∧
    (∀ (st : AsRequests) (u : String) (tr : Except PyError Response) (h : Nat),
       setExceptionHandler (get st u tr) h = get (setExceptionHandler st h) u tr) ∧
    (∀ (st : AsRequests) (t : PendingTask) (f : CbFun),
       st.callbackMode ≠ 2 → st.callbackMode ≠ 3 →
       ((aHttpRequest (setCallback st (.plain f)) t).1).result =
         f (dataFor t) st.result) := by
  refine ⟨fun st u tr c => rfl, fun st u tr c => rfl, fun st u tr h => rfl,
    fun st t f h2 h3 => ?_⟩
  exact aHttpRequest_result_plain _ t f h2 h3 rfl

/-- C9 witness. -/
theorem c9_callback_read_at_completion_witness :
    setCallback (get sampleSt "u" (.ok resp0)) noopCb =
      get (setCallback sampleSt noopCb) "u" (.ok resp0) ∧
    ((aHttpRequest (setCallback sampleSt (.plain defaultCbFun))
        ⟨"GET", "u", .ok resp0, 0⟩).1).result =
      defaultCbFun (dataFor ⟨"GET", "u", .ok resp0, 0⟩) sampleSt.result :=
  ⟨c9_callback_read_at_completion.1 sampleSt "u" (.ok resp0) noopCb,
   c9_callback_read_at_completion.2.2.2 sampleSt ⟨"GET", "u", .ok resp0, 0⟩
     defaultCbFun (by decide) (by decide)⟩

/-- C10: the scope-exit handler returns `True` to the context-management
protocol whenever it returns at all, and any exception `runScope` propagates
is one raised inside `_executeTasks` itself — an exception raised by the
caller's code inside the scope body is silently suppressed and never reaches
the caller. -/
theorem c10_scope_exit_suppresses_body_exceptions :
    (∀ (st : AsRequests) (p : AsRequests × Bool),
       exitCm st = .ok p → p.2 = true) ∧
    (∀ (st : AsRequests) (body : PyBody) (e : PyError),
       runScope st body = .error e →
       executeTasks (body (enter st)).1 = .error e) := by
  constructor
  · intro st p h
    unfold exitCm at h
    cases hx : executeTasks st with
    | ok a =>
        rw [hx] at h
        simp only [Except.map] at h
        cases h
        rfl
    | error e2 =>
        rw [hx] at h
        simp [Except.map] at h
  · exact fun st body e h => runScope_error st body e h

/-- C10 witness. -/
theorem c10_scope_exit_suppresses_body_exceptions_witness :
    executeTasks ((fun s => (s, some (PyError.typeError "boom")))
        (enter (mkAsRequests none none 1))).1 =
      .error (.valueError waitEmptyMsg) :=
  c10_scope_exit_suppresses_body_exceptions.2 (mkAsRequests none none 1)
    (fun s => (s, some (PyError.typeError "boom"))) (.valueError waitEmptyMsg) rfl

end Asrequests
